import Mathlib

/-!
# Verification of the real-robot teleoperation control loop

Shallow embedding of `demo_real_robot.py` (the `main` control loop):
the per-cycle deadline arithmetic, the SpaceMouse motion mapping, the
orientation update through `scipy.spatial.transform.Rotation`, the
key-press episode handling, and the per-cycle effect trace.

Numbers are modelled exactly: loop times, poses and device samples as
rationals, the rotation semantics (trigonometric) over the reals.
-/

namespace DemoRealRobot

/-! ## Key events and the episode state (lines 91–115)

`get_press_events` yields key strokes; the loop reacts to `q`, `c`, `s`
and `Backspace` and ignores every other key.  The Backspace branch asks
`click.confirm` for confirmation; the operator's answer is modelled as a
Boolean carried by the event.  External episode calls
(`env.start_episode`, `env.end_episode`, `env.drop_episode`) and the
confirmation prompt are modelled by counters. -/

inductive KeyEvent : Type
  | keyQ : KeyEvent
  | keyC : KeyEvent
  | keyS : KeyEvent
  | backspace (confirmed : Bool) : KeyEvent
  | otherKey : KeyEvent
deriving DecidableEq, Repr

/-- Counts of calls made to the external recorder, plus the number of
confirmation prompts shown by the Backspace branch. -/
structure EpisodeCalls : Type where
  start_calls : ℕ
  end_calls : ℕ
  drop_calls : ℕ
  prompts : ℕ
deriving DecidableEq, Repr

/-- Loop state touched by the key-press handler: the `stop` flag, the
`is_recording` flag, and the keystroke counter's hold count for the
space key (read as `stage` at line 115, zeroed by `key_counter.clear()`). -/
structure LoopState : Type where
  stop : Bool
  is_recording : Bool
  space_count : ℕ
  calls : EpisodeCalls
deriving DecidableEq, Repr

/-- The state at loop entry (lines 79–80): not stopped, not recording,
no external calls made yet; `n0` is the space hold count. -/
def initState (n0 : ℕ) : LoopState :=
  { stop := false, is_recording := false, space_count := n0
    calls := { start_calls := 0, end_calls := 0, drop_calls := 0, prompts := 0 } }

/-- One iteration of the `for key_stroke in press_events` body
(lines 92–114).  Note that no branch consults `is_recording`: the
external calls are made unconditionally on the matching key. -/
def processEvent (st : LoopState) : KeyEvent → LoopState
  | KeyEvent.keyQ => { st with stop := true }
  | KeyEvent.keyC =>
      { st with
        is_recording := true
        space_count := 0
        calls := { st.calls with start_calls := st.calls.start_calls + 1 } }
  | KeyEvent.keyS =>
      { st with
        is_recording := false
        space_count := 0
        calls := { st.calls with end_calls := st.calls.end_calls + 1 } }
  | KeyEvent.backspace confirmed =>
      let st1 := { st with calls := { st.calls with prompts := st.calls.prompts + 1 } }
      if confirmed then
        { st1 with
          is_recording := false
          space_count := 0
          calls := { st1.calls with drop_calls := st1.calls.drop_calls + 1 } }
      else st1
  | KeyEvent.otherKey => st

/-- The whole `for` loop over one cycle's drained event batch. -/
def processEvents (st : LoopState) (events : List KeyEvent) : LoopState :=
  events.foldl processEvent st

/-! ## Cycle scheduler deadlines (lines 40, 83–85)

`dt = 1/frequency`; for cycle index `iter_idx` the loop computes
`t_cycle_end = t_start + (iter_idx + 1) * dt`,
`t_sample = t_cycle_end - command_latency`,
`t_command_target = t_cycle_end + dt`.
Times are monotonic-clock instants, modelled as rationals. -/

def t_cycle_end (t_start dt : ℚ) (iter_idx : ℕ) : ℚ :=
  t_start + ((iter_idx : ℚ) + 1) * dt

def t_sample (t_start dt command_latency : ℚ) (iter_idx : ℕ) : ℚ :=
  t_cycle_end t_start dt iter_idx - command_latency

def t_command_target (t_start dt : ℚ) (iter_idx : ℕ) : ℚ :=
  t_cycle_end t_start dt iter_idx + dt

/-! ## Monotonic-to-wall-clock conversion (lines 98 and 168)

`T - time.monotonic() + time.time()` converts a monotonic instant `T`
into the wall-clock domain using a simultaneous pair
(`mono_now`, `wall_now`) sampled at the call site. -/

/-- Wall-clock image of the monotonic instant `T` given a simultaneous
(monotonic, wall) clock sample. -/
def wallClockOf (T mono_now wall_now : ℚ) : ℚ :=
  T - mono_now + wall_now

/-- The argument passed to `env.start_episode` at line 98:
`t_start + (iter_idx + 2) * dt - time.monotonic() + time.time()`. -/
def startEpisodeTimestamp (t_start dt : ℚ) (iter_idx : ℕ) (mono_now wall_now : ℚ) : ℚ :=
  t_start + ((iter_idx : ℚ) + 2) * dt - mono_now + wall_now

/-- The single timestamp dispatched with the command at line 168:
`t_command_target - time.monotonic() + time.time()`. -/
def dispatchTimestamp (t_start dt : ℚ) (iter_idx : ℕ) (mono_now wall_now : ℚ) : ℚ :=
  t_command_target t_start dt iter_idx - mono_now + wall_now

/-! ## Motion mapping (lines 141–153)

`sm_state` is the transformed SpaceMouse reading, six values in
`[-1, 1]`.  Scales `pos_scale = env.max_pos_speed / frequency` and
`rot_scale = env.max_rot_speed / frequency` are configured constants.
Button 0 (left) enables rotation, button 1 (right) unlocks the z axis;
the mutation order of the Python code is kept: first the
button-0 branch zeroes `drot_xyz` or `dpos` wholesale, then a released
button 1 zeroes `dpos[2]`. -/

/-- Scaled position delta before gating: `sm_state[:3] * (max_pos_speed / frequency)`. -/
def dposRaw (sm_state : Fin 6 → ℚ) (pos_scale : ℚ) : Fin 3 → ℚ :=
  ![sm_state 0 * pos_scale, sm_state 1 * pos_scale, sm_state 2 * pos_scale]

/-- Scaled rotation delta before gating: `sm_state[3:] * (max_rot_speed / frequency)`. -/
def drotRaw (sm_state : Fin 6 → ℚ) (rot_scale : ℚ) : Fin 3 → ℚ :=
  ![sm_state 3 * rot_scale, sm_state 4 * rot_scale, sm_state 5 * rot_scale]

/-- The gated per-cycle deltas `(dpos, drot_xyz)` exactly as computed in
lines 143–153. -/
def motionMap (sm_state : Fin 6 → ℚ) (button0 button1 : Bool)
    (pos_scale rot_scale : ℚ) : (Fin 3 → ℚ) × (Fin 3 → ℚ) :=
  let dpos0 := dposRaw sm_state pos_scale
  let drot0 := drotRaw sm_state rot_scale
  let gated : (Fin 3 → ℚ) × (Fin 3 → ℚ) :=
    if button0 = false then (dpos0, ![0, 0, 0]) else (![0, 0, 0], drot0)
  let dpos1 : Fin 3 → ℚ :=
    if button1 = false then ![gated.1 0, gated.1 1, 0] else gated.1
  (dpos1, gated.2)

/-! ## Rotation semantics (lines 155–160)

`drot = st.Rotation.from_euler('xyz', drot_xyz)` and
`target_pose[3:] = (drot * st.Rotation.from_rotvec(target_pose[3:])).as_rotvec()`.
Rotations are modelled as 3×3 real matrices, the faithful semantics of
the `scipy.spatial.transform.Rotation` objects the code manipulates;
the rotation-vector storage step is modelled at the level of the
rotation represented (a rotation vector `v` denotes the matrix
`fromRotvec v`, and `as_rotvec` is a section of `fromRotvec`). -/

/-- A 3×3 real matrix, the semantics of a `scipy` `Rotation` object. -/
def M3 : Type := Fin 3 → Fin 3 → ℝ

/-- Matrix product on `M3` (row-by-column, dimension 3 written out). -/
def mulM (A B : M3) : M3 := fun i j =>
  A i 0 * B 0 j + A i 1 * B 1 j + A i 2 * B 2 j

/-- The identity matrix. -/
def idM : M3 := ![![1, 0, 0], ![0, 1, 0], ![0, 0, 1]]

/-- Entrywise sum of two matrices. -/
def addM (A B : M3) : M3 := fun i j => A i j + B i j

/-- Scalar multiple of a matrix. -/
def smulM (c : ℝ) (A : M3) : M3 := fun i j => c * A i j

/-- Elementary rotation about the x axis by angle `t`. -/
noncomputable def Rx (t : ℝ) : M3 :=
  ![![1, 0, 0], ![0, Real.cos t, -Real.sin t], ![0, Real.sin t, Real.cos t]]

/-- Elementary rotation about the y axis by angle `t`. -/
noncomputable def Ry (t : ℝ) : M3 :=
  ![![Real.cos t, 0, Real.sin t], ![0, 1, 0], ![-Real.sin t, 0, Real.cos t]]

/-- Elementary rotation about the z axis by angle `t`. -/
noncomputable def Rz (t : ℝ) : M3 :=
  ![![Real.cos t, -Real.sin t, 0], ![Real.sin t, Real.cos t, 0], ![0, 0, 1]]

/-- Cross-product matrix of a 3-vector. -/
def crossM (v : Fin 3 → ℝ) : M3 :=
  ![![0, -v 2, v 1], ![v 2, 0, -v 0], ![-v 1, v 0, 0]]

/-- Euclidean norm of a 3-vector (the rotation angle of a rotation vector). -/
noncomputable def norm3 (v : Fin 3 → ℝ) : ℝ :=
  Real.sqrt (v 0 ^ 2 + v 1 ^ 2 + v 2 ^ 2)

/-- Semantics of `st.Rotation.from_rotvec(v)`: the Rodrigues formula
`I + (sin θ / θ) K + ((1 - cos θ) / θ²) K²` with `θ = ‖v‖` and `K` the
cross-product matrix of `v`.  (At `v = 0` the junk values `0/0 = 0` of
real division make this the identity, matching `from_rotvec(0) = id`.) -/
noncomputable def fromRotvec (v : Fin 3 → ℝ) : M3 :=
  addM (addM idM (smulM (Real.sin (norm3 v) / norm3 v) (crossM v)))
    (smulM ((1 - Real.cos (norm3 v)) / norm3 v ^ 2) (mulM (crossM v) (crossM v)))

/-- Semantics of `st.Rotation.from_euler('xyz', d)`.  A lowercase axis
string means EXTRINSIC rotations in scipy: rotate about the fixed x axis
by `d 0`, then the fixed y axis by `d 1`, then the fixed z axis by
`d 2`, i.e. the product `Rz (d 2) * Ry (d 1) * Rx (d 0)`. -/
noncomputable def fromEulerXYZ (d : Fin 3 → ℝ) : M3 :=
  mulM (Rz (d 2)) (mulM (Ry (d 1)) (Rx (d 0)))

/-- Modelled from the spec: the spec's words "incremental rotation from
`drot_xyz` interpreted as intrinsic Euler angles about x, y, z (in that
order)" — intrinsic composition `Rx (d 0) * Ry (d 1) * Rz (d 2)`
(scipy's uppercase `'XYZ'`), stated for comparison with `fromEulerXYZ`,
the semantics of the lowercase `'xyz'` the code actually passes. -/
noncomputable def fromEulerIntrinsicXYZ (d : Fin 3 → ℝ) : M3 :=
  mulM (Rx (d 0)) (mulM (Ry (d 1)) (Rz (d 2)))

/-- The rotation stored back into `target_pose[3:]` by lines 155–160,
read at the level of the rotation it represents:
`drot * from_rotvec(old)` with `drot = from_euler('xyz', drot_xyz)`. -/
noncomputable def rotationUpdate (drot_xyz old_rotvec : Fin 3 → ℝ) : M3 :=
  mulM (fromEulerXYZ drot_xyz) (fromRotvec old_rotvec)

/-- Modelled from the spec: the "naive additive update" the spec rules
out — store `old_rotvec + drot_xyz` componentwise; as a rotation it
denotes `fromRotvec (old_rotvec + drot_xyz)`. -/
noncomputable def additiveUpdate (drot_xyz old_rotvec : Fin 3 → ℝ) : M3 :=
  fromRotvec (fun i => old_rotvec i + drot_xyz i)

/-! ## The per-cycle effect trace (lines 82–171)

Observable actions of one pass through the `while` body, in program
order.  Pure computations that the spec names as pipeline steps
(deadline computation, the target-pose update) are recorded as marker
effects carrying the computed values. -/

inductive Effect : Type
  | computeDeadlines (tce tsamp tct : ℚ)
  | getObs
  | callStartEpisode (exec_timestamp : ℚ)
  | clearKeyCounter
  | callEndEpisode
  | promptDropConfirm
  | callDropEpisode
  | readStage (stage : ℕ)
  | printStatus (episode_id : ℕ) (stage : ℕ) (recording : Bool)
  | waitUntil (t : ℚ)
  | readDevice
  | updatePose (pos : Fin 3 → ℚ) (rotvec : Fin 3 → ℚ)
  | callExecActions (pos : Fin 3 → ℚ) (rotvec : Fin 3 → ℚ) (timestamp : ℚ) (stage : ℕ)
deriving DecidableEq

/-- External calls emitted by one key event (lines 92–114): `q` only
sets the flag, `c` starts an episode and clears the counter, `s` ends
one and clears, Backspace always prompts and on confirmation drops and
clears.  `exec_timestamp` is the argument of line 98. -/
def eventEffects (exec_timestamp : ℚ) : KeyEvent → List Effect
  | KeyEvent.keyQ => []
  | KeyEvent.keyC => [Effect.callStartEpisode exec_timestamp, Effect.clearKeyCounter]
  | KeyEvent.keyS => [Effect.callEndEpisode, Effect.clearKeyCounter]
  | KeyEvent.backspace confirmed =>
      Effect.promptDropConfirm ::
        (if confirmed then [Effect.callDropEpisode, Effect.clearKeyCounter] else [])
  | KeyEvent.otherKey => []

/-- Effects of the whole event batch, in arrival order. -/
def eventsEffects (exec_timestamp : ℚ) (events : List KeyEvent) : List Effect :=
  (events.map (eventEffects exec_timestamp)).flatten

/-- The commanded 6-DOF target: position plus rotation vector
(`target_pose[:3]` and `target_pose[3:]`). -/
structure Pose : Type where
  pos : Fin 3 → ℚ
  rot : Fin 3 → ℚ
deriving DecidableEq

/-- The single-step command submitted by `env.exec_actions`
(lines 166–169): one action (a pose), one timestamp, one stage. -/
structure Command : Type where
  pos : Fin 3 → ℚ
  rot : Fin 3 → ℚ
  timestamp : ℚ
  stage : ℕ
deriving DecidableEq

/-- Configured constants of the loop.  `rotvec_update drot_xyz old` is
the numeric rotation-vector update of lines 155–160
(`(from_euler('xyz', drot_xyz) * from_rotvec(old)).as_rotvec()`), kept
as a parameter here because its exact semantics is trigonometric; it is
verified separately over ℝ (`rotationUpdate`), and every cycle-level
theorem below holds for an arbitrary such function. -/
structure LoopParams : Type where
  t_start : ℚ
  dt : ℚ
  command_latency : ℚ
  pos_scale : ℚ
  rot_scale : ℚ
  rotvec_update : (Fin 3 → ℚ) → (Fin 3 → ℚ) → (Fin 3 → ℚ)

/-- Per-cycle inputs supplied by the external collaborators: the
drained key batch, the device snapshot and button states, the episode
count for the status line, and the (monotonic, wall) clock pairs
sampled at the `start_episode` call site (line 98) and at the dispatch
site (line 168). -/
structure CycleInput : Type where
  events : List KeyEvent
  sm_state : Fin 6 → ℚ
  button0 : Bool
  button1 : Bool
  episode_id : ℕ
  mono_at_key : ℚ
  wall_at_key : ℚ
  mono_at_dispatch : ℚ
  wall_at_dispatch : ℚ

/-- Result of one pass through the `while` body. -/
structure CycleResult : Type where
  state : LoopState
  pose : Pose
  command : Command
  trace : List Effect

/-- One pass through the `while` body (lines 82–171), in program order:
deadlines (83–85), `get_obs` (88), the key-event loop (91–114), the
stage read (115), the status line (119–132), `precise_wait(t_sample)`
(139), the SpaceMouse read (141), motion mapping (143–153), the pose
update (155–160), `exec_actions` (166–169), `precise_wait(t_cycle_end)`
(170). -/
def cycleBody (p : LoopParams) (st : LoopState) (pose : Pose) (iter_idx : ℕ)
    (inp : CycleInput) : CycleResult :=
  let tce := t_cycle_end p.t_start p.dt iter_idx
  let tsamp := tce - p.command_latency
  let tct := tce + p.dt
  let exec_ts := startEpisodeTimestamp p.t_start p.dt iter_idx inp.mono_at_key inp.wall_at_key
  let st1 := processEvents st inp.events
  let evFx := eventsEffects exec_ts inp.events
  let stage := st1.space_count
  let md := motionMap inp.sm_state inp.button0 inp.button1 p.pos_scale p.rot_scale
  let new_pos : Fin 3 → ℚ := fun j => pose.pos j + md.1 j
  let new_rot := p.rotvec_update md.2 pose.rot
  let cmd_ts := tct - inp.mono_at_dispatch + inp.wall_at_dispatch
  { state := st1
    pose := { pos := new_pos, rot := new_rot }
    command := { pos := new_pos, rot := new_rot, timestamp := cmd_ts, stage := stage }
    trace :=
      Effect.computeDeadlines tce tsamp tct :: Effect.getObs :: evFx ++
        [Effect.readStage stage,
         Effect.printStatus inp.episode_id stage st1.is_recording,
         Effect.waitUntil tsamp, Effect.readDevice,
         Effect.updatePose new_pos new_rot,
         Effect.callExecActions new_pos new_rot cmd_ts stage,
         Effect.waitUntil tce] }

/-- The `while not stop` loop (line 81): the flag is checked at the top
of each iteration only; a cycle, once entered, always runs to the end
of the body (`iter_idx += 1`).  Cycle inputs are consumed from a list;
the trace concatenates the cycles' traces. -/
def runLoop (p : LoopParams) : LoopState → Pose → ℕ → List CycleInput →
    LoopState × Pose × List Effect
  | st, pose, _, [] => (st, pose, [])
  | st, pose, iter_idx, inp :: rest =>
      if st.stop then (st, pose, [])
      else
        let c := cycleBody p st pose iter_idx inp
        let r := runLoop p c.state c.pose (iter_idx + 1) rest
        (r.1, r.2.1, c.trace ++ r.2.2)

/-- Key events whose handler calls `key_counter.clear()` (lines 99, 105,
111–112): `c`, `s`, and a Backspace whose confirmation was accepted. -/
def clearsCounter : KeyEvent → Bool
  | KeyEvent.keyC => true
  | KeyEvent.keyS => true
  | KeyEvent.backspace confirmed => confirmed
  | _ => false

/-- Effects that can be emitted by the key-event loop (episode-boundary
calls, the confirmation prompt, keystroke-counter clears). -/
def isEventEffect : Effect → Bool
  | Effect.callStartEpisode _ => true
  | Effect.clearKeyCounter => true
  | Effect.callEndEpisode => true
  | Effect.promptDropConfirm => true
  | Effect.callDropEpisode => true
  | _ => false

/-- Forget the `is_recording` part of the status line (the
`', Recording!'` suffix of lines 121–122); used to compare traces up to
that suffix. -/
def scrubRecording : Effect → Effect
  | Effect.printStatus episode_id stage _ => Effect.printStatus episode_id stage false
  | e => e

/-! ## Concrete sample data (used to instantiate universally quantified
theorems at executable inputs) -/

/-- Sample loop constants: `frequency = 1`, `command_latency = 1/20`,
identity rotation-vector update. -/
def sampleParams : LoopParams :=
  { t_start := 0, dt := 1, command_latency := 1 / 20, pos_scale := 4, rot_scale := 6
    rotvec_update := fun _ old => old }

/-- Sample initial pose. -/
def samplePose : Pose := { pos := ![0, 0, 0], rot := ![0, 0, 0] }

/-- Sample cycle input whose event batch is a single Start key. -/
def sampleInput : CycleInput :=
  { events := [KeyEvent.keyC], sm_state := ![0, 0, 0, 0, 0, 0]
    button0 := false, button1 := false, episode_id := 0
    mono_at_key := 2, wall_at_key := 100, mono_at_dispatch := 3, wall_at_dispatch := 101 }

/-- Sample cycle input whose event batch is Quit followed by Start. -/
def sampleQuitInput : CycleInput :=
  { sampleInput with events := [KeyEvent.keyQ, KeyEvent.keyC] }

/-! ## Helper lemmas -/

/-- A counter-clearing event zeroes the space hold count. -/
lemma processEvent_space_of_clears (st : LoopState) (e : KeyEvent)
    (h : clearsCounter e = true) : (processEvent st e).space_count = 0 := by
  cases e with
  | keyQ => simp [clearsCounter] at h
  | keyC => rfl
  | keyS => rfl
  | backspace confirmed =>
      simp [clearsCounter] at h
      simp [processEvent, h]
  | otherKey => simp [clearsCounter] at h

/-- No key-event branch increases the space hold count: once zero,
it stays zero for the rest of the batch. -/
lemma processEvents_space_stays_zero (events : List KeyEvent) :
    ∀ st : LoopState, st.space_count = 0 →
      (processEvents st events).space_count = 0 := by
  induction events with
  | nil => intro st h; exact h
  | cons e tl ih =>
      intro st h
      have he : (processEvent st e).space_count = 0 := by
        cases e with
        | keyQ => exact h
        | keyC => rfl
        | keyS => rfl
        | backspace confirmed => cases confirmed <;> simp [processEvent, h]
        | otherKey => exact h
      exact ih (processEvent st e) he

/-- If some event of the batch clears the counter, the hold count read
after the batch is zero. -/
lemma processEvents_space_zero_of_clearing (events : List KeyEvent) :
    ∀ st : LoopState, (∃ e ∈ events, clearsCounter e = true) →
      (processEvents st events).space_count = 0 := by
  induction events with
  | nil => intro st h; simp at h
  | cons e tl ih =>
      intro st h
      rcases h with ⟨e0, he0, hc⟩
      rcases List.mem_cons.1 he0 with h1 | h2
      · subst h1
        exact processEvents_space_stays_zero tl (processEvent st e0)
          (processEvent_space_of_clears st e0 hc)
      · exact ih (processEvent st e) ⟨e0, h2, hc⟩

/-- Every `callStartEpisode` the event loop emits carries the one
timestamp computed at line 98. -/
lemma eventsEffects_startEp_timestamp (events : List KeyEvent) (ts t : ℚ)
    (h : Effect.callStartEpisode t ∈ eventsEffects ts events) : t = ts := by
  induction events with
  | nil => simp [eventsEffects] at h
  | cons e tl ih =>
      simp only [eventsEffects, List.map_cons, List.flatten_cons, List.mem_append] at h
      rcases h with h | h
      · cases e with
        | keyQ => simp [eventEffects] at h
        | keyC => simp [eventEffects] at h; exact h
        | keyS => simp [eventEffects] at h
        | backspace confirmed => cases confirmed <;> simp [eventEffects] at h
        | otherKey => simp [eventEffects] at h
      · exact ih h

/-- Everything the event loop emits is an event effect. -/
lemma eventsEffects_isEventEffect (events : List KeyEvent) (ts : ℚ) :
    ∀ e ∈ eventsEffects ts events, isEventEffect e = true := by
  induction events with
  | nil => simp [eventsEffects]
  | cons e0 tl ih =>
      intro e he
      simp only [eventsEffects, List.map_cons, List.flatten_cons, List.mem_append] at he
      rcases he with h | h
      · cases e0 with
        | keyQ => simp [eventEffects] at h
        | keyC => rcases (by simpa [eventEffects] using h) with h1 | h1 <;>
            simp [h1, isEventEffect]
        | keyS => rcases (by simpa [eventEffects] using h) with h1 | h1 <;>
            simp [h1, isEventEffect]
        | backspace confirmed =>
            cases confirmed with
            | false => simp [eventEffects] at h; simp [h, isEventEffect]
            | true =>
                rcases (by simpa [eventEffects] using h) with h1 | h1 | h1 <;>
                  simp [h1, isEventEffect]
        | otherKey => simp [eventEffects] at h
      · exact ih e h

/-- A stopped loop runs no further cycle. -/
lemma runLoop_stopped (p : LoopParams) (st : LoopState) (pose : Pose)
    (iter_idx : ℕ) (inputs : List CycleInput) (h : st.stop = true) :
    runLoop p st pose iter_idx inputs = (st, pose, []) := by
  cases inputs with
  | nil => rfl
  | cons inp rest => simp [runLoop, h]

/-- The key-event handler never reads `is_recording`: two states that
agree on everything except `is_recording` keep agreeing on `stop`,
`space_count` and the external-call counters through any batch. -/
lemma processEvents_agree (events : List KeyEvent) :
    ∀ s t : LoopState, s.stop = t.stop → s.space_count = t.space_count →
      s.calls = t.calls →
      (processEvents s events).stop = (processEvents t events).stop ∧
      (processEvents s events).space_count = (processEvents t events).space_count ∧
      (processEvents s events).calls = (processEvents t events).calls := by
  induction events with
  | nil => exact fun s t h1 h2 h3 => ⟨h1, h2, h3⟩
  | cons e tl ih =>
      intro s t h1 h2 h3
      have step : (processEvent s e).stop = (processEvent t e).stop ∧
          (processEvent s e).space_count = (processEvent t e).space_count ∧
          (processEvent s e).calls = (processEvent t e).calls := by
        cases e with
        | keyQ => exact ⟨rfl, h2, h3⟩
        | keyC => exact ⟨h1, rfl, by simp [processEvent, h3]⟩
        | keyS => exact ⟨h1, rfl, by simp [processEvent, h3]⟩
        | backspace confirmed => cases confirmed <;> simp [processEvent, h1, h2, h3]
        | otherKey => exact ⟨h1, h2, h3⟩
      exact ih (processEvent s e) (processEvent t e) step.1 step.2.1 step.2.2

/-- The `start_episode` argument of line 98 is the command-target
instant of the current cycle, converted to the wall clock. -/
lemma startEpisodeTimestamp_eq_wall (t_start dt : ℚ) (iter_idx : ℕ) (m w : ℚ) :
    startEpisodeTimestamp t_start dt iter_idx m w =
      wallClockOf (t_command_target t_start dt iter_idx) m w := by
  simp only [startEpisodeTimestamp, wallClockOf, t_command_target, t_cycle_end]
  ring

/-- Processing a batch event by event: the head first. -/
lemma processEvents_cons (st : LoopState) (e : KeyEvent) (l : List KeyEvent) :
    processEvents st (e :: l) = processEvents (processEvent st e) l := rfl

/-- Processing a concatenated batch processes the two halves in order. -/
lemma processEvents_append (st : LoopState) (l1 l2 : List KeyEvent) :
    processEvents st (l1 ++ l2) = processEvents (processEvents st l1) l2 := by
  simp [processEvents, List.foldl_append]

/-- No key-event branch resets the `stop` flag: once set it stays set
for the rest of the batch. -/
lemma processEvents_stop_stays (events : List KeyEvent) :
    ∀ st : LoopState, st.stop = true → (processEvents st events).stop = true := by
  induction events with
  | nil => exact fun st h => h
  | cons e tl ih =>
      intro st h
      have he : (processEvent st e).stop = true := by
        cases e with
        | keyQ => rfl
        | keyC => exact h
        | keyS => exact h
        | backspace confirmed => cases confirmed <;> simp [processEvent, h]
        | otherKey => exact h
      exact ih (processEvent st e) he

/-- The key-event handler never reads the `stop` flag: two states that
agree on everything except `stop` keep agreeing on `is_recording`,
`space_count` and the external-call counters through any batch. -/
lemma processEvents_agree_except_stop (events : List KeyEvent) :
    ∀ s t : LoopState, s.is_recording = t.is_recording →
      s.space_count = t.space_count → s.calls = t.calls →
      (processEvents s events).is_recording = (processEvents t events).is_recording ∧
      (processEvents s events).space_count = (processEvents t events).space_count ∧
      (processEvents s events).calls = (processEvents t events).calls := by
  induction events with
  | nil => exact fun s t h1 h2 h3 => ⟨h1, h2, h3⟩
  | cons e tl ih =>
      intro s t h1 h2 h3
      have step : (processEvent s e).is_recording = (processEvent t e).is_recording ∧
          (processEvent s e).space_count = (processEvent t e).space_count ∧
          (processEvent s e).calls = (processEvent t e).calls := by
        cases e with
        | keyQ => exact ⟨h1, h2, h3⟩
        | keyC => exact ⟨rfl, rfl, by simp [processEvent, h3]⟩
        | keyS => exact ⟨rfl, rfl, by simp [processEvent, h3]⟩
        | backspace confirmed => cases confirmed <;> simp [processEvent, h1, h2, h3]
        | otherKey => exact ⟨h1, h2, h3⟩
      exact ih (processEvent s e) (processEvent t e) step.1 step.2.1 step.2.2

/-- Event effects of a concatenated batch, in order. -/
lemma eventsEffects_append (ts : ℚ) (l1 l2 : List KeyEvent) :
    eventsEffects ts (l1 ++ l2) = eventsEffects ts l1 ++ eventsEffects ts l2 := by
  simp [eventsEffects]

/-- A Start key anywhere in the batch emits its `start_episode` call. -/
lemma startEp_mem_of_keyC (ts : ℚ) (events : List KeyEvent)
    (h : KeyEvent.keyC ∈ events) :
    Effect.callStartEpisode ts ∈ eventsEffects ts events := by
  induction events with
  | nil => simp at h
  | cons e tl ih =>
      rcases List.mem_cons.1 h with h1 | h1
      · subst h1
        simp [eventsEffects, eventEffects]
      · have := ih h1
        simp only [eventsEffects, List.map_cons, List.flatten_cons] at this ⊢
        exact List.mem_append_right _ this

/-! ## Claim theorems -/

/-- Claim C1, counterexample: starting from Idle, the event sequence
Start, Start does NOT yield exactly one `start_episode` call — the `c`
branch (lines 96–101) never checks `is_recording`, so the second Start
issues a second call. -/
theorem c1_counterexample_start_start_two_calls :
    (processEvents (initState 0) [KeyEvent.keyC, KeyEvent.keyC]).calls.start_calls ≠ 1 := by
  decide

/-- Claim C1 (amended): a Start event always calls `start_episode`, even
while already Recording; from Idle, the sequence Start, Start yields two
`start_episode` calls, and the state after it is Recording. -/
theorem c1_start_while_recording_calls_again (st : LoopState) :
    (processEvent st KeyEvent.keyC).calls.start_calls = st.calls.start_calls + 1 ∧
    (processEvent st KeyEvent.keyC).is_recording = true ∧
    (processEvents (initState 0) [KeyEvent.keyC, KeyEvent.keyC]).calls.start_calls = 2 ∧
    (processEvents (initState 0) [KeyEvent.keyC, KeyEvent.keyC]).is_recording = true :=
  ⟨rfl, rfl, by decide, by decide⟩

/-- Claim C2, counterexample: a Stop processed while Idle is NOT a silent
no-op — the `s` branch (lines 102–107) calls `end_episode`
unconditionally; likewise a Drop while Idle shows the confirmation
prompt (line 110). -/
theorem c2_counterexample_stop_drop_while_idle :
    (processEvents (initState 0) [KeyEvent.keyS]).calls.end_calls ≠ 0 ∧
    (processEvents (initState 0) [KeyEvent.backspace false]).calls.prompts ≠ 0 := by
  decide

/-- Claim C2 (amended): while Idle, a Stop event calls `end_episode` once
(the state stays not-recording); a Drop event always shows the
confirmation prompt, calls `drop_episode` exactly when confirmed, and
leaves the state not-recording. -/
theorem c2_stop_drop_while_idle_call_through (st : LoopState)
    (h : st.is_recording = false) :
    (processEvent st KeyEvent.keyS).calls.end_calls = st.calls.end_calls + 1 ∧
    (processEvent st KeyEvent.keyS).is_recording = false ∧
    (∀ confirmed, (processEvent st (KeyEvent.backspace confirmed)).calls.prompts =
      st.calls.prompts + 1) ∧
    (processEvent st (KeyEvent.backspace true)).calls.drop_calls =
      st.calls.drop_calls + 1 ∧
    (processEvent st (KeyEvent.backspace true)).is_recording = false ∧
    (processEvent st (KeyEvent.backspace false)).calls.drop_calls = st.calls.drop_calls ∧
    (processEvent st (KeyEvent.backspace false)).is_recording = false := by
  refine ⟨rfl, rfl, fun confirmed => ?_, rfl, rfl, rfl, ?_⟩
  · cases confirmed <;> rfl
  · simpa [processEvent] using h

/-- Claim C2 witness: the amended claim evaluated at the initial (Idle)
state. -/
theorem c2_stop_drop_while_idle_call_through_witness :
    (initState 0).is_recording = false ∧
    (processEvent (initState 0) KeyEvent.keyS).calls.end_calls =
      (initState 0).calls.end_calls + 1 ∧
    (processEvent (initState 0) (KeyEvent.backspace false)).calls.drop_calls =
      (initState 0).calls.drop_calls :=
  ⟨rfl, (c2_stop_drop_while_idle_call_through (initState 0) rfl).1,
    (c2_stop_drop_while_idle_call_through (initState 0) rfl).2.2.2.2.2.1⟩

/-- Claim C4: the three per-cycle deadlines are pure functions of the
anchor `t_start`, the fixed `dt` and the cycle index; consecutive cycle
ends differ by exactly `dt`, independent of any wall-clock sample. -/
theorem c4_deadlines_pure_functions (t_start dt command_latency : ℚ) (iter_idx : ℕ) :
    t_cycle_end t_start dt iter_idx = t_start + ((iter_idx : ℚ) + 1) * dt ∧
    t_sample t_start dt command_latency iter_idx =
      t_cycle_end t_start dt iter_idx - command_latency ∧
    t_command_target t_start dt iter_idx = t_cycle_end t_start dt iter_idx + dt ∧
    t_cycle_end t_start dt (iter_idx + 1) = t_cycle_end t_start dt iter_idx + dt := by
  refine ⟨rfl, rfl, rfl, ?_⟩
  simp only [t_cycle_end]
  push_cast
  ring

/-- Claim C5: mode gating — with the rotation-enable button pressed,
`dpos` is exactly zero; with it released, `drot_xyz` is exactly zero;
and in translation mode with the z-unlock button released, `dpos`'s
z-component is zero while x and y pass through scaled by
`max_pos_speed / frequency`. -/
theorem c5_motion_gating (sm_state : Fin 6 → ℚ) (button0 button1 : Bool)
    (pos_scale rot_scale : ℚ) :
    (button0 = true →
      (motionMap sm_state button0 button1 pos_scale rot_scale).1 = ![0, 0, 0]) ∧
    (button0 = false →
      (motionMap sm_state button0 button1 pos_scale rot_scale).2 = ![0, 0, 0]) ∧
    (button0 = false → button1 = false →
      (motionMap sm_state button0 button1 pos_scale rot_scale).1 2 = 0 ∧
      (motionMap sm_state button0 button1 pos_scale rot_scale).1 0 =
        sm_state 0 * pos_scale ∧
      (motionMap sm_state button0 button1 pos_scale rot_scale).1 1 =
        sm_state 1 * pos_scale) := by
  refine ⟨fun h0 => ?_, fun h0 => ?_, fun h0 h1 => ?_⟩
  · subst h0
    cases button1 <;> funext i <;> fin_cases i <;> simp [motionMap]
  · subst h0
    simp [motionMap]
  · subst h0; subst h1
    refine ⟨?_, ?_, ?_⟩ <;> simp [motionMap, dposRaw]

/-- Claim C5 witness: the gating evaluated on a concrete sample. -/
theorem c5_motion_gating_witness :
    (motionMap ![1/2, -1/3, 1, 1, 0, -1] false false 4 6).1 2 = 0 ∧
    (motionMap ![1/2, -1/3, 1, 1, 0, -1] false false 4 6).1 0 =
      (![1/2, -1/3, 1, 1, 0, -1] : Fin 6 → ℚ) 0 * 4 ∧
    (motionMap ![1/2, -1/3, 1, 1, 0, -1] true false 4 6).1 = ![0, 0, 0] ∧
    (motionMap ![1/2, -1/3, 1, 1, 0, -1] false true 4 6).2 = ![0, 0, 0] :=
  ⟨((c5_motion_gating ![1/2, -1/3, 1, 1, 0, -1] false false 4 6).2.2 rfl rfl).1,
    ((c5_motion_gating ![1/2, -1/3, 1, 1, 0, -1] false false 4 6).2.2 rfl rfl).2.1,
    (c5_motion_gating ![1/2, -1/3, 1, 1, 0, -1] true false 4 6).1 rfl,
    (c5_motion_gating ![1/2, -1/3, 1, 1, 0, -1] false true 4 6).2.1 rfl⟩

/-- Claim C6: the `start_episode` argument is the monotonic instant
`t_start + (iter_idx + 2)·dt` — the current cycle's command target —
converted to the wall clock via `T - mono_now + wall_now`, and the
timestamp dispatched with every command is the command target converted
the same way: both the standalone line-98/line-168 expressions and the
values flowing through the cycle body. -/
theorem c6_timestamps_command_target_wall (t_start dt m w : ℚ) (i : ℕ)
    (p : LoopParams) (st : LoopState) (pose : Pose) (iter_idx : ℕ) (inp : CycleInput) :
    startEpisodeTimestamp t_start dt i m w =
      wallClockOf (t_command_target t_start dt i) m w ∧
    t_start + ((i : ℚ) + 2) * dt = t_command_target t_start dt i ∧
    dispatchTimestamp t_start dt i m w =
      wallClockOf (t_command_target t_start dt i) m w ∧
    (cycleBody p st pose iter_idx inp).command.timestamp =
      wallClockOf (t_command_target p.t_start p.dt iter_idx)
        inp.mono_at_dispatch inp.wall_at_dispatch ∧
    (∀ t : ℚ, Effect.callStartEpisode t ∈ (cycleBody p st pose iter_idx inp).trace →
      t = wallClockOf (t_command_target p.t_start p.dt iter_idx)
        inp.mono_at_key inp.wall_at_key) := by
  refine ⟨startEpisodeTimestamp_eq_wall t_start dt i m w, ?_, rfl, rfl, ?_⟩
  · simp only [t_command_target, t_cycle_end]; ring
  · intro t ht
    simp [cycleBody, List.mem_cons, List.mem_append] at ht
    rw [eventsEffects_startEp_timestamp inp.events _ t ht]
    exact startEpisodeTimestamp_eq_wall p.t_start p.dt iter_idx
      inp.mono_at_key inp.wall_at_key

/-- Claim C6 witness: a concrete Start cycle; the timestamp `100` in the
emitted `start_episode` call equals the wall-clock image of the command
target. -/
theorem c6_timestamps_command_target_wall_witness :
    Effect.callStartEpisode 100 ∈
      (cycleBody sampleParams (initState 0) samplePose 0 sampleInput).trace ∧
    (100 : ℚ) = wallClockOf (t_command_target 0 1 0) 2 100 := by
  have hmem : Effect.callStartEpisode 100 ∈
      (cycleBody sampleParams (initState 0) samplePose 0 sampleInput).trace := by
    norm_num [cycleBody, sampleParams, sampleInput, samplePose, initState,
      eventsEffects, eventEffects, startEpisodeTimestamp, List.mem_cons,
      List.mem_append]
  exact ⟨hmem,
    (c6_timestamps_command_target_wall 0 1 2 100 0 sampleParams (initState 0)
      samplePose 0 sampleInput).2.2.2.2 100 hmem⟩

/-- Claim C7: in any cycle whose batch contains a Start, Stop, or
confirmed Drop, the stage read afterwards (and emitted with the
command) is 0, because the transition cleared the keystroke counter;
and in every cycle the emitted stage equals the space hold count as it
stands after the event batch is drained. -/
theorem c7_stage_reset_and_live_emission (p : LoopParams) (st : LoopState)
    (pose : Pose) (iter_idx : ℕ) (inp : CycleInput) :
    ((∃ e ∈ inp.events, clearsCounter e = true) →
      (cycleBody p st pose iter_idx inp).command.stage = 0) ∧
    (cycleBody p st pose iter_idx inp).command.stage =
      (processEvents st inp.events).space_count := by
  exact ⟨fun h => processEvents_space_zero_of_clearing inp.events st h, rfl⟩

/-- Claim C7 witness: a cycle whose batch is a single Start: some event
clears the counter, hence the emitted stage is 0. -/
theorem c7_stage_reset_and_live_emission_witness :
    (∃ e ∈ sampleInput.events, clearsCounter e = true) ∧
    (cycleBody sampleParams (initState 3) samplePose 0 sampleInput).command.stage = 0 :=
  ⟨by decide,
    (c7_stage_reset_and_live_emission sampleParams (initState 3) samplePose 0
      sampleInput).1 (by decide)⟩

/-- Claim C8: per-cycle control flow — the trace of every cycle is
exactly: deadline computation, observation pull, the event batch's
effects (episode calls/prompts/clears only), the stage read, the status
line, the wait until the sampling instant, the device read, the pose
update, the dispatch, the wait until the cycle end.  In particular the
device is read only after the wait to `t_sample`, and dispatch follows
the pose update. -/
theorem c8_cycle_step_order (p : LoopParams) (st : LoopState) (pose : Pose)
    (iter_idx : ℕ) (inp : CycleInput) :
    ∃ evFx : List Effect, (∀ e ∈ evFx, isEventEffect e = true) ∧
      (cycleBody p st pose iter_idx inp).trace =
        Effect.computeDeadlines (t_cycle_end p.t_start p.dt iter_idx)
            (t_sample p.t_start p.dt p.command_latency iter_idx)
            (t_command_target p.t_start p.dt iter_idx) ::
          Effect.getObs :: evFx ++
          [Effect.readStage (cycleBody p st pose iter_idx inp).command.stage,
           Effect.printStatus inp.episode_id
             (cycleBody p st pose iter_idx inp).command.stage
             (cycleBody p st pose iter_idx inp).state.is_recording,
           Effect.waitUntil (t_sample p.t_start p.dt p.command_latency iter_idx),
           Effect.readDevice,
           Effect.updatePose (cycleBody p st pose iter_idx inp).pose.pos
             (cycleBody p st pose iter_idx inp).pose.rot,
           Effect.callExecActions (cycleBody p st pose iter_idx inp).command.pos
             (cycleBody p st pose iter_idx inp).command.rot
             (cycleBody p st pose iter_idx inp).command.timestamp
             (cycleBody p st pose iter_idx inp).command.stage,
           Effect.waitUntil (t_cycle_end p.t_start p.dt iter_idx)] :=
  ⟨eventsEffects
      (startEpisodeTimestamp p.t_start p.dt iter_idx inp.mono_at_key inp.wall_at_key)
      inp.events,
    eventsEffects_isEventEffect inp.events _, rfl⟩

/-- Claim C10: the `is_recording` flag does not influence the dispatched
command: flipping it (all other state and inputs equal) leaves the
updated target pose, the `exec_actions` arguments, and the whole trace
up to the status line's `Recording!` suffix unchanged. -/
theorem c10_recording_flag_noninterference (p : LoopParams) (st : LoopState)
    (pose : Pose) (iter_idx : ℕ) (inp : CycleInput) (b : Bool) :
    (cycleBody p { st with is_recording := b } pose iter_idx inp).command =
      (cycleBody p st pose iter_idx inp).command ∧
    (cycleBody p { st with is_recording := b } pose iter_idx inp).pose =
      (cycleBody p st pose iter_idx inp).pose ∧
    (cycleBody p { st with is_recording := b } pose iter_idx inp).trace.map
        scrubRecording =
      (cycleBody p st pose iter_idx inp).trace.map scrubRecording := by
  obtain ⟨h1, h2, h3⟩ :=
    processEvents_agree inp.events { st with is_recording := b } st rfl rfl rfl
  refine ⟨?_, rfl, ?_⟩
  · simp only [cycleBody]
    rw [h2]
  · simp only [cycleBody, List.map_cons, List.map_append, scrubRecording]
    rw [h2]

/-- Claim C9: for ANY drained batch in which a Quit appears — written
`pre ++ Quit :: post` — every event after the Quit is still processed:
the final state's recording flag, hold count and external-call counters
are exactly those of processing the batch with the Quit removed, the
emitted event effects are exactly those of the batch with the Quit
removed (the Quit itself emits nothing), and a Start anywhere after the
Quit still puts its `start_episode` call in the trace; the cycle still
runs to completion — the trace ends with the `exec_actions` dispatch
and the end-of-cycle wait — and the loop terminates only at the next
loop-condition check: the run consumes no further cycle input. -/
theorem c9_quit_finishes_cycle_then_stops (p : LoopParams) (st : LoopState)
    (pose : Pose) (iter_idx : ℕ) (inp : CycleInput) (rest : List CycleInput)
    (pre post : List KeyEvent) (hstop : st.stop = false)
    (hev : inp.events = pre ++ KeyEvent.keyQ :: post) :
    ((cycleBody p st pose iter_idx inp).state.is_recording =
        (processEvents st (pre ++ post)).is_recording ∧
      (cycleBody p st pose iter_idx inp).state.space_count =
        (processEvents st (pre ++ post)).space_count ∧
      (cycleBody p st pose iter_idx inp).state.calls =
        (processEvents st (pre ++ post)).calls) ∧
    (∀ ts : ℚ, eventsEffects ts inp.events = eventsEffects ts (pre ++ post)) ∧
    (KeyEvent.keyC ∈ post →
      Effect.callStartEpisode
          (startEpisodeTimestamp p.t_start p.dt iter_idx inp.mono_at_key inp.wall_at_key) ∈
        (cycleBody p st pose iter_idx inp).trace) ∧
    (∃ l : List Effect, (cycleBody p st pose iter_idx inp).trace =
      l ++ [Effect.callExecActions (cycleBody p st pose iter_idx inp).command.pos
              (cycleBody p st pose iter_idx inp).command.rot
              (cycleBody p st pose iter_idx inp).command.timestamp
              (cycleBody p st pose iter_idx inp).command.stage,
            Effect.waitUntil (t_cycle_end p.t_start p.dt iter_idx)]) ∧
    (cycleBody p st pose iter_idx inp).state.stop = true ∧
    runLoop p st pose iter_idx (inp :: rest) =
      ((cycleBody p st pose iter_idx inp).state,
       (cycleBody p st pose iter_idx inp).pose,
       (cycleBody p st pose iter_idx inp).trace) := by
  have hstate : (cycleBody p st pose iter_idx inp).state = processEvents st inp.events := rfl
  have hL : processEvents st inp.events =
      processEvents { processEvents st pre with stop := true } post := by
    rw [hev, processEvents_append, processEvents_cons]
    rfl
  have hR : processEvents st (pre ++ post) =
      processEvents (processEvents st pre) post := processEvents_append st pre post
  have hagree := processEvents_agree_except_stop post
    { processEvents st pre with stop := true } (processEvents st pre) rfl rfl rfl
  have hstop2 : (cycleBody p st pose iter_idx inp).state.stop = true := by
    rw [hstate, hL]
    exact processEvents_stop_stays post _ rfl
  refine ⟨?_, ?_, ?_, ?_, hstop2, ?_⟩
  · rw [hstate, hL, hR]
    exact hagree
  · intro ts
    rw [hev, eventsEffects_append, eventsEffects_append]
    simp [eventsEffects, eventEffects]
  · intro hmem
    have h1 : KeyEvent.keyC ∈ inp.events := by
      rw [hev]
      exact List.mem_append_right _ (List.mem_cons_of_mem _ hmem)
    have h2 := startEp_mem_of_keyC
      (startEpisodeTimestamp p.t_start p.dt iter_idx inp.mono_at_key inp.wall_at_key)
      inp.events h1
    exact List.mem_cons_of_mem _ (List.mem_cons_of_mem _ (List.mem_append_left _ h2))
  · refine ⟨Effect.computeDeadlines (t_cycle_end p.t_start p.dt iter_idx)
        (t_sample p.t_start p.dt p.command_latency iter_idx)
        (t_command_target p.t_start p.dt iter_idx) ::
      Effect.getObs ::
      eventsEffects
        (startEpisodeTimestamp p.t_start p.dt iter_idx inp.mono_at_key inp.wall_at_key)
        inp.events ++
      [Effect.readStage (cycleBody p st pose iter_idx inp).command.stage,
       Effect.printStatus inp.episode_id
         (cycleBody p st pose iter_idx inp).command.stage
         (cycleBody p st pose iter_idx inp).state.is_recording,
       Effect.waitUntil (t_sample p.t_start p.dt p.command_latency iter_idx),
       Effect.readDevice,
       Effect.updatePose (cycleBody p st pose iter_idx inp).pose.pos
         (cycleBody p st pose iter_idx inp).pose.rot], ?_⟩
    simp [cycleBody, t_sample, t_command_target, List.append_assoc]
  · simp only [runLoop, hstop, Bool.false_eq_true, if_false]
    rw [runLoop_stopped p _ _ _ rest hstop2]
    simp

/-- Claim C9 witness: the general theorem applied at the concrete batch
`[] ++ Quit :: [Start]`: the run over this cycle plus one more queued
input stops after the first cycle, the `start_episode` effect of the
Start following the Quit is in the trace, and the stop flag is set. -/
theorem c9_quit_finishes_cycle_then_stops_witness :
    (initState 0).stop = false ∧
    sampleQuitInput.events = [] ++ KeyEvent.keyQ :: [KeyEvent.keyC] ∧
    runLoop sampleParams (initState 0) samplePose 0 (sampleQuitInput :: [sampleInput]) =
      ((cycleBody sampleParams (initState 0) samplePose 0 sampleQuitInput).state,
       (cycleBody sampleParams (initState 0) samplePose 0 sampleQuitInput).pose,
       (cycleBody sampleParams (initState 0) samplePose 0 sampleQuitInput).trace) ∧
    Effect.callStartEpisode (startEpisodeTimestamp 0 1 0 2 100) ∈
      (cycleBody sampleParams (initState 0) samplePose 0 sampleQuitInput).trace ∧
    (cycleBody sampleParams (initState 0) samplePose 0 sampleQuitInput).state.stop = true :=
  ⟨rfl, rfl,
    (c9_quit_finishes_cycle_then_stops sampleParams (initState 0) samplePose 0
      sampleQuitInput [sampleInput] [] [KeyEvent.keyC] rfl rfl).2.2.2.2.2,
    (c9_quit_finishes_cycle_then_stops sampleParams (initState 0) samplePose 0
      sampleQuitInput [sampleInput] [] [KeyEvent.keyC] rfl rfl).2.2.1 (by decide),
    (c9_quit_finishes_cycle_then_stops sampleParams (initState 0) samplePose 0
      sampleQuitInput [sampleInput] [] [KeyEvent.keyC] rfl rfl).2.2.2.2.1⟩

/-! ## Rotation lemmas for C3 -/

/-- The zero rotation vector has norm 0. -/
lemma norm3_zero : norm3 ![0, 0, 0] = 0 := by
  unfold norm3
  norm_num [Matrix.cons_val_zero, Matrix.cons_val_one, Matrix.head_cons]

/-- Lemma: `from_rotvec(0)` is the identity rotation. -/
lemma fromRotvec_zero : fromRotvec ![0, 0, 0] = idM := by
  funext i j
  simp [fromRotvec, norm3_zero, addM, smulM, Real.sin_zero, Real.cos_zero]

/-- The rotation vector `(π, 0, 0)` has norm `π`. -/
lemma norm3_pi_x : norm3 ![Real.pi, 0, 0] = Real.pi := by
  unfold norm3
  norm_num [Matrix.cons_val_zero, Matrix.cons_val_one, Matrix.cons_val_two,
    Matrix.head_cons, Matrix.tail_cons]
  exact Real.sqrt_sq Real.pi_pos.le

/-- The rotation vector `(π, π, 0)` has norm `√2·π`. -/
lemma norm3_pi_pi : norm3 ![Real.pi, Real.pi, 0] = Real.sqrt 2 * Real.pi := by
  unfold norm3
  norm_num [Matrix.cons_val_zero, Matrix.cons_val_one, Matrix.cons_val_two,
    Matrix.head_cons, Matrix.tail_cons]
  rw [show Real.pi ^ 2 + Real.pi ^ 2 = 2 * Real.pi ^ 2 by ring,
    Real.sqrt_mul (by norm_num : (0:ℝ) ≤ 2) (Real.pi ^ 2),
    Real.sqrt_sq Real.pi_pos.le]

/-- Lemma: `from_rotvec((π, 0, 0))` is the half-turn about the x axis. -/
lemma fromRotvec_pi_x :
    fromRotvec ![Real.pi, 0, 0] = ![![1, 0, 0], ![0, -1, 0], ![0, 0, -1]] := by
  funext i j
  fin_cases i <;> fin_cases j <;>
    simp [fromRotvec, norm3_pi_x, addM, smulM, mulM, crossM, idM,
      Real.sin_pi, Real.cos_pi, Matrix.vecHead, Matrix.vecTail] <;>
    field_simp [Real.pi_ne_zero] <;> ring

/-- Lemma: `from_euler('xyz', (0, π, 0))` is the half-turn about the y axis. -/
lemma fromEulerXYZ_0_pi_0 :
    fromEulerXYZ ![0, Real.pi, 0] = ![![-1, 0, 0], ![0, 1, 0], ![0, 0, -1]] := by
  funext i j
  fin_cases i <;> fin_cases j <;>
    norm_num [fromEulerXYZ, Rx, Ry, Rz, mulM, Real.sin_pi, Real.cos_pi,
      Real.sin_zero, Real.cos_zero]

/-- The (2,2) entry of the code's composed update at
`drot_xyz = (0, π, 0)`, `old = (π, 0, 0)`. -/
lemma rotationUpdate_entry_22 :
    rotationUpdate ![0, Real.pi, 0] ![Real.pi, 0, 0] 2 2 = 1 := by
  rw [rotationUpdate, fromEulerXYZ_0_pi_0, fromRotvec_pi_x]
  norm_num [mulM]

/-- The (2,2) entry of the naive additive update at the same inputs is
`cos(√2·π)`. -/
lemma additiveUpdate_entry_22 :
    additiveUpdate ![0, Real.pi, 0] ![Real.pi, 0, 0] 2 2 =
      Real.cos (Real.sqrt 2 * Real.pi) := by
  have hsum : (fun i => (![Real.pi, 0, 0] : Fin 3 → ℝ) i +
      (![0, Real.pi, 0] : Fin 3 → ℝ) i) = ![Real.pi, Real.pi, 0] := by
    funext i
    fin_cases i <;> simp
  rw [additiveUpdate, hsum]
  have h2 : (Real.sqrt 2 * Real.pi) ^ 2 = 2 * Real.pi ^ 2 := by
    rw [mul_pow, Real.sq_sqrt (by norm_num : (0:ℝ) ≤ 2)]
  simp [fromRotvec, norm3_pi_pi, addM, smulM, mulM, crossM, idM, h2]
  field_simp
  ring

/-- Lemma: `cos(√2·π) ≠ 1`, because `√2` is irrational while the cosine is 1
only at integer multiples of `2π`. -/
lemma cos_sqrt_two_pi_ne_one : Real.cos (Real.sqrt 2 * Real.pi) ≠ 1 := by
  intro h
  rcases (Real.cos_eq_one_iff _).1 h with ⟨n, hn⟩
  have h3 : ((n : ℝ) * 2) * Real.pi = Real.sqrt 2 * Real.pi := by
    ring_nf
    ring_nf at hn
    linarith [hn]
  have h4 : (n : ℝ) * 2 = Real.sqrt 2 := mul_right_cancel₀ Real.pi_ne_zero h3
  have h5 : Real.sqrt 2 = ((2 * n : ℤ) : ℝ) := by push_cast; linarith
  exact irrational_sqrt_two.ne_int (2 * n) h5

/-- Claim C3, counterexample: the code passes lowercase `'xyz'` to
`from_euler`, which scipy defines as EXTRINSIC (fixed-axis) rotations;
interpreting `drot_xyz` as INTRINSIC Euler angles about x, y, z as the
claim states gives a different incremental rotation.  At
`drot_xyz = (π/2, π/2, 0)` (current rotation: identity) the two composed
updates differ. -/
theorem c3_counterexample_extrinsic_not_intrinsic :
    rotationUpdate ![Real.pi / 2, Real.pi / 2, 0] ![0, 0, 0] ≠
      mulM (fromEulerIntrinsicXYZ ![Real.pi / 2, Real.pi / 2, 0])
        (fromRotvec ![0, 0, 0]) := by
  intro hEq
  have h := congrFun (congrFun hEq 1) 0
  simp only [rotationUpdate, fromRotvec_zero] at h
  norm_num [mulM, idM, fromEulerXYZ, fromEulerIntrinsicXYZ, Rx, Ry, Rz,
    Real.cos_pi_div_two, Real.sin_pi_div_two, Real.cos_zero, Real.sin_zero,
    Matrix.vecHead, Matrix.vecTail] at h

/-- Claim C3 (amended): the cycle's orientation update builds the
incremental rotation from `drot_xyz` interpreted as EXTRINSIC
(fixed-axis) Euler rotations about x, y, z in that order (scipy's
lowercase `'xyz'`; equivalently intrinsic about z, y, x), left-composes
it with the current rotation reconstructed from the stored rotation
vector, and stores the result; it is not componentwise addition on the
rotation-vector parameters: at `drot_xyz = (0, π, 0)`,
`old = (π, 0, 0)` the composed rotation differs from the rotation the
summed vector `(π, π, 0)` denotes. -/
theorem c3_rotation_update_extrinsic_left_composed
    (drot_xyz old_rotvec : Fin 3 → ℝ) :
    rotationUpdate drot_xyz old_rotvec =
      mulM (fromEulerXYZ drot_xyz) (fromRotvec old_rotvec) ∧
    fromEulerXYZ drot_xyz =
      mulM (Rz (drot_xyz 2)) (mulM (Ry (drot_xyz 1)) (Rx (drot_xyz 0))) ∧
    rotationUpdate ![0, Real.pi, 0] ![Real.pi, 0, 0] ≠
      additiveUpdate ![0, Real.pi, 0] ![Real.pi, 0, 0] := by
  refine ⟨rfl, rfl, fun h => ?_⟩
  have h22 := congrFun (congrFun h 2) 2
  rw [rotationUpdate_entry_22, additiveUpdate_entry_22] at h22
  exact cos_sqrt_two_pi_ne_one h22.symm

end DemoRealRobot
